/-
Verification of the ebx 2D game-engine extension (github.com/samredway/ebx).

This file gives a shallow embedding, in Lean 4, of the algorithmic parts of
the repository that the claims concern:

  * `assetmgr.TileMap` and its `OverlapsTiles` rectangle-vs-grid query
    (src/assetmgr/assets.go),
  * `MovementSystem.resolveXAxis` / `resolveYAxis` and the axis-separated
    per-entity resolution of `MovementSystem.Update` (src/engine/systems.go),
  * the `AnimationStateMachine` transition selection and clip-name
    construction (src/engine/animation.go),
  * `AnimationSystem.Update` frame advancement (src/engine/animation.go),
  * `Camera.CentreOn` / `clamp` (src/camera/camera.go),
  * the `PositionStore` / `StateStore` getters (src/engine/stores.go).

Go `float64` arithmetic is embedded as exact rational arithmetic (`ℚ`);
`math.Floor` becomes the integer floor `⌊·⌋`.  Go maps are embedded as
association lists or as plain functions, as noted at each definition.
A Go `panic` is embedded as the `Except.error` branch of an `Except`
result.
-/
import Mathlib

namespace Ebx

/-- `geom.Vec2` (src/geom/geom.go): a pair of `float64` coordinates. -/
structure Vec2 where
  X : ℚ
  Y : ℚ
deriving Repr, DecidableEq

/-- `geom.Vec2I`: a pair of integer coordinates (used for facing directions). -/
structure Vec2I where
  X : ℤ
  Y : ℤ
deriving Repr, DecidableEq

/-- `collisionEpsilon` (src/engine/systems.go): `const collisionEpsilon = 0.001`. -/
def collisionEpsilon : ℚ := 1 / 1000

/-- `assetmgr.TileMap` (src/assetmgr/assets.go): tile size in pixels, map
size in tiles (`mapSize geom.Size`, embedded as the two fields `mapW`,
`mapH`), and per-layer flat integer arrays of tile ids. -/
structure TileMap where
  tileW : ℤ
  tileH : ℤ
  mapW : ℤ
  mapH : ℤ
  layers : List (List ℤ)
deriving Repr

/-- The tile id stored at tile coordinates `(tx, ty)` of a layer: the Go
read `data[ty*rowW + tx]` where `data = tm.layers[layer]` and
`rowW = tm.mapSize.W`.  Reads outside the backing array give `0`. -/
def TileMap.tileAt (tm : TileMap) (layer : ℕ) (tx ty : ℤ) : ℤ :=
  (tm.layers.getD layer []).getD (ty * tm.mapW + tx).toNat 0

/-- `TileMap.OverlapsTiles` (src/assetmgr/assets.go): computes the covered
tile-index range of the rectangle `(x, y, w, h)` with
`tx0 = ⌊x/tw⌋`, `tx1 = ⌊(x+w-1)/tw⌋ + 1` (exclusive max) and the analogous
`ty0`, `ty1`; returns `true` when that range lies entirely outside the map
("outside = collide with world bounds"); otherwise clamps the range to the
map and scans it for a non-zero tile id.  The Go function takes a valid
`layer` index (it panics otherwise); this embedding is only used at valid
layers, where `layers.getD layer []` is the Go `tm.layers[layer]`. -/
def TileMap.OverlapsTiles (tm : TileMap) (x y w h : ℚ) (layer : ℕ) : Bool :=
  let tw : ℚ := tm.tileW
  let th : ℚ := tm.tileH
  let tx0 : ℤ := ⌊x / tw⌋
  let ty0 : ℤ := ⌊y / th⌋
  let tx1 : ℤ := ⌊(x + w - 1) / tw⌋ + 1
  let ty1 : ℤ := ⌊(y + h - 1) / th⌋ + 1
  if tx1 ≤ 0 ∨ ty1 ≤ 0 ∨ tm.mapW ≤ tx0 ∨ tm.mapH ≤ ty0 then
    true
  else
    let tx0c := max tx0 0
    let ty0c := max ty0 0
    let tx1c := min tx1 tm.mapW
    let ty1c := min ty1 tm.mapH
    (List.range (ty1c - ty0c).toNat).any fun i =>
      (List.range (tx1c - tx0c).toNat).any fun j =>
        decide (tm.tileAt layer (tx0c + j) (ty0c + i) ≠ 0)

/-- Spec-side reading of "the rectangle overlaps a non-zero tile of the
layer": some in-map tile cell `[tx*tileW, (tx+1)*tileW) × [ty*tileH,
(ty+1)*tileH)` holding a non-zero id meets the closed pixel span
`[x, x+w-1] × [y, y+h-1]` covered by the rectangle (the `-1` pixel
convention is the one `OverlapsTiles` uses to form its tile range). -/
def coversNonzeroTile (tm : TileMap) (x y w h : ℚ) (layer : ℕ) : Prop :=
  ∃ tx ty : ℤ,
    0 ≤ tx ∧ tx < tm.mapW ∧ 0 ≤ ty ∧ ty < tm.mapH ∧
    (tx : ℚ) * tm.tileW ≤ x + w - 1 ∧ x < (tx + 1 : ℤ) * tm.tileW ∧
    (ty : ℚ) * tm.tileH ≤ y + h - 1 ∧ y < (ty + 1 : ℤ) * tm.tileH ∧
    tm.tileAt layer tx ty ≠ 0

/-- Spec-side reading of "the covered tile range lies entirely outside the
map": the closed pixel span of the rectangle is disjoint from the map's
pixel extent `[0, mapW*tileW) × [0, mapH*tileH)`. -/
def spanOutsideMap (tm : TileMap) (x y w h : ℚ) : Prop :=
  x + w - 1 < 0 ∨ y + h - 1 < 0 ∨
    (tm.mapW : ℚ) * tm.tileW ≤ x ∨ (tm.mapH : ℚ) * tm.tileH ≤ y

/-- `MovementSystem.resolveXAxis` (src/engine/systems.go): predict the new
X, and if the moved rectangle overlaps the collision layer push back to the
blocking tile-column edge offset by `collisionEpsilon`; Y is passed through.
In the source the tile map and collision layer are fields of
`MovementSystem`; here they are explicit parameters. -/
def resolveXAxis (tm : TileMap) (layer : ℕ) (posX posY w h dx tileW : ℚ) :
    ℚ × ℚ :=
  if tm.OverlapsTiles (posX + dx) posY w h layer then
    if 0 < dx then
      (⌊(posX + dx + w) / tileW⌋ * tileW - w - collisionEpsilon, posY)
    else if dx < 0 then
      ((⌊(posX + dx) / tileW⌋ + 1) * tileW + collisionEpsilon, posY)
    else
      (posX + dx, posY)
  else
    (posX + dx, posY)

/-- `MovementSystem.resolveYAxis` (src/engine/systems.go): the Y-axis
mirror of `resolveXAxis`; X is passed through. -/
def resolveYAxis (tm : TileMap) (layer : ℕ) (posX posY w h dy tileH : ℚ) :
    ℚ × ℚ :=
  if tm.OverlapsTiles posX (posY + dy) w h layer then
    if 0 < dy then
      (posX, ⌊(posY + dy + h) / tileH⌋ * tileH - h - collisionEpsilon)
    else if dy < 0 then
      (posX, (⌊(posY + dy) / tileH⌋ + 1) * tileH + collisionEpsilon)
    else
      (posX, posY + dy)
  else
    (posX, posY + dy)

/-- The per-entity body of `MovementSystem.Update` (src/engine/systems.go)
after the displacement `(dx, dy)` has been computed: "move X, then Y
(axis-separated → natural sliding)".  In the source `dx`/`dy` are
`Normalize(m.Direction)` scaled by `m.Speed * dt`; `math.Hypot` is
real-valued, so the displacement enters this embedding as a parameter. -/
def resolveMove (tm : TileMap) (layer : ℕ) (posX posY w h dx dy : ℚ) :
    ℚ × ℚ :=
  resolveYAxis tm layer
    (resolveXAxis tm layer posX posY w h dx tm.tileW).1
    (resolveXAxis tm layer posX posY w h dx tm.tileW).2
    w h dy tm.tileH

/-- `engine.EntityId`: an integer entity identifier. -/
abbrev EntityId := ℕ

/-- `engine.StateComponent`.  Modelled from the spec: the struct definition
itself is not among the provided sources — only its uses are — but
`AnimationStateMachine.Update` reads `state.FacingDir` and the example
games' transition conditions read `FacingDir` and `IsMoving`
(src/engine/animation.go, src/unnamed/part_012). -/
structure StateComponent where
  entityId : EntityId
  FacingDir : Vec2I
  IsMoving : Bool

/-- `engine.AnimationState` (src/engine/animation.go): a state name. -/
abbrev AnimationState := String

/-- `engine.AnimationTransition` (src/engine/animation.go): target state
(the source field `to`, a Lean keyword, is renamed `toState`), boolean
condition on the entity's state component, and priority. -/
structure AnimationTransition where
  toState : AnimationState
  condition : StateComponent → Bool
  priority : ℤ

/-- `engine.AnimationStateMachine` (src/engine/animation.go): current
state, the transition table (a Go map of slices; a missing key reads as
the empty slice, so it is embedded as a total function into lists), and
the `directionalStates` map (`SetDirectional`), embedded as a partial map. -/
structure AnimationStateMachine where
  currentState : AnimationState
  transitions : AnimationState → List AnimationTransition
  directionalStates : AnimationState → Option Bool

/-- The body of the transition-selection loop of
`AnimationStateMachine.Update` (src/engine/animation.go): a satisfied
transition becomes the candidate when there is none yet, or when its
priority strictly exceeds the current candidate's. -/
def pickTransition (state : StateComponent)
    (best : Option AnimationTransition) (t : AnimationTransition) :
    Option AnimationTransition :=
  if t.condition state then
    match best with
    | none => some t
    | some b => if b.priority < t.priority then some t else some b
  else best

/-- The transition-selection loop of `AnimationStateMachine.Update`
(src/engine/animation.go), with the accumulator `best` explicit. -/
def findBestAux (state : StateComponent) (best : Option AnimationTransition) :
    List AnimationTransition → Option AnimationTransition
  | [] => best
  | t :: ts => findBestAux state (pickTransition state best t) ts

/-- The transition-selection loop of `AnimationStateMachine.Update`
(src/engine/animation.go): scan the current state's transitions in
declaration order, starting from no candidate. -/
def findBestTransition (ts : List AnimationTransition)
    (state : StateComponent) : Option AnimationTransition :=
  findBestAux state none ts

/-- `DirectionToString` (src/engine/animation.go): cardinal suffix from a
facing vector, consulting X before Y and defaulting to `"down"`. -/
def DirectionToString (dir : Vec2I) : String :=
  if dir.X < 0 then "left"
  else if 0 < dir.X then "right"
  else if dir.Y < 0 then "up"
  else if 0 < dir.Y then "down"
  else "down"

/-- `AnimationStateMachine.buildAnimationName` (src/engine/animation.go):
states marked non-directional keep the bare state name (the
`directionalStates` default is directional); otherwise the clip name is
the state name, `"_"`, and the direction suffix. -/
def buildAnimationName (sm : AnimationStateMachine) (state : AnimationState)
    (dir : Vec2I) : String :=
  let directional := (sm.directionalStates state).getD true
  if directional then state ++ "_" ++ DirectionToString dir else state

/-- `AnimationStateMachine.Update` (src/engine/animation.go): select the
best satisfied transition out of the current state, switch to its target
if one exists, and return the updated machine together with the new state
and the clip name built from it and the component's facing direction. -/
def smUpdate (sm : AnimationStateMachine) (state : StateComponent) :
    AnimationStateMachine × AnimationState × String :=
  let best := findBestTransition (sm.transitions sm.currentState) state
  let newState :=
    match best with
    | some t => t.toState
    | none => sm.currentState
  let sm2 := { sm with currentState := newState }
  (sm2, newState, buildAnimationName sm2 newState state.FacingDir)

/-- `engine.AnimationDef` (src/engine/animation.go), minus the sprite-sheet
images (host-engine image handles carry no data the claims touch). -/
structure AnimationDef where
  Name : String
  FirstFrame : ℤ
  LastFrame : ℤ
  FrameTime : ℚ
  Loop : Bool

/-- `engine.AnimationComponent` fields used by `AnimationSystem.Update`. -/
structure AnimationComponent where
  entityId : EntityId
  CurrentAnim : String
  CurrentFrame : ℤ
  ElapsedTime : ℚ
  Playing : Bool

/-- The frame-advancement half of `AnimationSystem.Update`
(src/engine/animation.go): skipped when the current animation is undefined
or not playing; otherwise accumulate elapsed time and, when it reaches
`FrameTime`, step one frame, wrapping to `FirstFrame` (looping) or holding
at `LastFrame` with `Playing = false` (non-looping) past `LastFrame`. -/
def advanceFrame (lib : String → Option AnimationDef)
    (a : AnimationComponent) (dt : ℚ) : AnimationComponent :=
  match lib a.CurrentAnim with
  | none => a
  | some d =>
    if a.Playing then
      let e := a.ElapsedTime + dt
      if d.FrameTime ≤ e then
        let f := a.CurrentFrame + 1
        if d.LastFrame < f then
          if d.Loop then
            { a with ElapsedTime := e - d.FrameTime, CurrentFrame := d.FirstFrame }
          else
            { a with ElapsedTime := e - d.FrameTime, CurrentFrame := d.LastFrame,
                     Playing := false }
        else
          { a with ElapsedTime := e - d.FrameTime, CurrentFrame := f }
      else
        { a with ElapsedTime := e }
    else a

/-- The per-component body of `AnimationSystem.Update`
(src/engine/animation.go), given the clip name `desired` produced by the
state machine: on a clip change, either stop playing (undefined clip,
`continue`) or reset to the new clip's first frame; then advance. -/
def updateAnimComponent (lib : String → Option AnimationDef)
    (desired : String) (a : AnimationComponent) (dt : ℚ) : AnimationComponent :=
  if desired ≠ a.CurrentAnim then
    match lib desired with
    | none => { a with CurrentAnim := desired, Playing := false }
    | some d =>
      advanceFrame lib
        { a with CurrentAnim := desired, CurrentFrame := d.FirstFrame,
                 ElapsedTime := 0, Playing := true } dt
  else
    advanceFrame lib a dt

/-- `camera.Camera` (src/camera/camera.go): embedded `geom.Vec2` position
`(X, Y)`, viewport size in pixels, world bounds (an `image.Rectangle`,
embedded as its four integer corners), and zoom factor. -/
structure Camera where
  X : ℚ
  Y : ℚ
  viewportW : ℤ
  viewportH : ℤ
  boundsMinX : ℤ
  boundsMinY : ℤ
  boundsMaxX : ℤ
  boundsMaxY : ℤ
  Zoom : ℚ

/-- `Camera.clamp` (src/camera/camera.go): clamp the camera origin to the
world bounds less the visible extent, lower bound first on each axis. -/
def Camera.clamp (c : Camera) : Camera :=
  let maxX : ℚ := (c.boundsMaxX : ℚ) - (c.viewportW : ℚ) / c.Zoom
  let maxY : ℚ := (c.boundsMaxY : ℚ) - (c.viewportH : ℚ) / c.Zoom
  let x1 := if c.X < (c.boundsMinX : ℚ) then (c.boundsMinX : ℚ) else c.X
  let x2 := if maxX < x1 then maxX else x1
  let y1 := if c.Y < (c.boundsMinY : ℚ) then (c.boundsMinY : ℚ) else c.Y
  let y2 := if maxY < y1 then maxY else y1
  { c with X := x2, Y := y2 }

/-- `Camera.CentreOn` (src/camera/camera.go): centre the viewport's
visible extent on `pos`, then clamp to the world bounds. -/
def Camera.CentreOn (c : Camera) (pos : Vec2) : Camera :=
  Camera.clamp
    { c with
        X := pos.X - (c.viewportW : ℚ) / c.Zoom / 2
        Y := pos.Y - (c.viewportH : ℚ) / c.Zoom / 2 }

/-- `engine.PositionComponent` (src/engine/components.go): entity id plus
an embedded `geom.Vec2` position and `geom.Size`. -/
structure PositionComponent where
  entityId : EntityId
  X : ℚ
  Y : ℚ
  W : ℤ
  H : ℤ

/-- `engine.PositionStore` (src/engine/stores.go): a Go map from entity id
to position component, embedded as an association list. -/
structure PositionStore where
  positions : List (EntityId × PositionComponent)

/-- `engine.StateStore` (src/engine/stores.go): a Go map from entity id to
state component, embedded as an association list. -/
structure StateStore where
  states : List (EntityId × StateComponent)

/-- `PositionStore.GetPosition` (src/engine/stores.go): returns the stored
component, or panics — modelled as `Except.error` with the source's panic
message — when the id has no attached component. -/
def PositionStore.GetPosition (ps : PositionStore) (id : EntityId) :
    Except String PositionComponent :=
  match ps.positions.lookup id with
  | some pos => Except.ok pos
  | none => Except.error "Position id does not exist"

/-- `StateStore.GetState` (src/engine/stores.go): returns the stored
component, or panics — modelled as `Except.error` carrying the source's
formatted panic message — when the id has no attached component. -/
def StateStore.GetState (ss : StateStore) (id : EntityId) :
    Except String StateComponent :=
  match ss.states.lookup id with
  | some st => Except.ok st
  | none =>
    Except.error ("StateComponent does not exist for entity " ++ toString id)

/-! Concrete fixtures used by the witness theorems. -/

/-- A 4×4 map of 16×16 tiles whose third column (`tx = 2`) is a solid wall
on layer 0. -/
def wallMap : TileMap where
  tileW := 16
  tileH := 16
  mapW := 4
  mapH := 4
  layers := [[0, 0, 1, 0, 0, 0, 1, 0, 0, 0, 1, 0, 0, 0, 1, 0]]

/-- A 2×2 map of 16×16 tiles whose single layer is all zeros. -/
def zeroMap : TileMap where
  tileW := 16
  tileH := 16
  mapW := 2
  mapH := 2
  layers := [[0, 0, 0, 0]]

/-- A state component for entity 1, facing down and not moving. -/
def idleState : StateComponent where
  entityId := 1
  FacingDir := { X := 0, Y := 1 }
  IsMoving := false

/-- A state component for entity 1, facing left and moving. -/
def movingLeftState : StateComponent where
  entityId := 1
  FacingDir := { X := -1, Y := 0 }
  IsMoving := true

/-- A state machine in state `"idle"` with a walk transition, two
equal-priority attack-style transitions (to observe declaration-order tie
breaking), and `"death"` marked non-directional. -/
def demoMachine : AnimationStateMachine where
  currentState := "idle"
  transitions := fun s =>
    if s = "idle" then
      [ { toState := "walk", condition := fun st => st.IsMoving, priority := 1 },
        { toState := "attackA", condition := fun st => st.IsMoving, priority := 2 },
        { toState := "attackB", condition := fun st => st.IsMoving, priority := 2 } ]
    else []
  directionalStates := fun s => if s = "death" then some false else none

/-- A position component for entity 1. -/
def demoPosition : PositionComponent where
  entityId := 1
  X := 100
  Y := 200
  W := 16
  H := 16

/-- A position store holding only `demoPosition` under id 1. -/
def demoPositionStore : PositionStore where
  positions := [(1, demoPosition)]

/-- A state store holding only `idleState` under id 1. -/
def demoStateStore : StateStore where
  states := [(1, idleState)]

/-- A looping three-frame walk animation over frames 4–6. -/
def walkDef : AnimationDef where
  Name := "walk_down"
  FirstFrame := 4
  LastFrame := 6
  FrameTime := 1 / 10
  Loop := true

/-- A non-looping three-frame death animation over frames 8–10. -/
def deathDef : AnimationDef where
  Name := "death"
  FirstFrame := 8
  LastFrame := 10
  FrameTime := 1 / 10
  Loop := false

/-- An animation library holding `walkDef` and `deathDef`. -/
def demoLibrary (name : String) : Option AnimationDef :=
  if name = "walk_down" then some walkDef
  else if name = "death" then some deathDef
  else none

/-- An animation component for entity 1 playing `walk_down` at its last
frame, one tick short of wrapping. -/
def walkAnim : AnimationComponent where
  entityId := 1
  CurrentAnim := "walk_down"
  CurrentFrame := 6
  ElapsedTime := 9 / 100
  Playing := true

/-- A camera with a 320×240 viewport, zoom 2, and world bounds 640×480. -/
def demoCamera : Camera where
  X := 0
  Y := 0
  viewportW := 320
  viewportH := 240
  boundsMinX := 0
  boundsMinY := 0
  boundsMaxX := 640
  boundsMaxY := 480
  Zoom := 2

/-! # Theorems -/

/-! Helper lemmas. -/

theorem resolveXAxis_snd (tm : TileMap) (layer : ℕ) (x y w h dx tw : ℚ) :
    (resolveXAxis tm layer x y w h dx tw).2 = y := by
  unfold resolveXAxis
  split <;> [skip; rfl]
  split <;> [rfl; skip]
  split <;> rfl

theorem resolveYAxis_fst (tm : TileMap) (layer : ℕ) (x y w h dy th : ℚ) :
    (resolveYAxis tm layer x y w h dy th).1 = x := by
  unfold resolveYAxis
  split <;> [skip; rfl]
  split <;> [rfl; skip]
  split <;> rfl

/-- The selection loop returns its accumulator when no transition in the
remaining list is satisfied. -/
theorem findBestAux_unsat (state : StateComponent) :
    ∀ (ts : List AnimationTransition) (acc : Option AnimationTransition),
      (∀ t ∈ ts, t.condition state = false) → findBestAux state acc ts = acc
  | [], _, _ => rfl
  | t :: ts, acc, h => by
    have ht := h t (List.mem_cons_self t ts)
    unfold findBestAux pickTransition
    rw [ht]
    simp only [Bool.false_eq_true, if_false]
    exact findBestAux_unsat state ts acc fun u hu =>
      h u (List.mem_cons_of_mem _ hu)

/-- **C2.** `resolveXAxis` leaves Y unchanged, and when the X-moved
rectangle overlaps a non-zero tile of the collision layer the returned X
is the blocking tile-grid edge offset by `collisionEpsilon`:
`⌊(x+dx+w)/tileW⌋*tileW - w - ε` for `dx > 0` and
`(⌊(x+dx)/tileW⌋+1)*tileW + ε` for `dx < 0`; `resolveYAxis` behaves
symmetrically on the Y axis with X unchanged. -/
theorem resolve_axes_clamp_to_tile_edge (tm : TileMap) (layer : ℕ)
    (x y w h dx dy tw th : ℚ) :
    (resolveXAxis tm layer x y w h dx tw).2 = y ∧
    (resolveYAxis tm layer x y w h dy th).1 = x ∧
    (tm.OverlapsTiles (x + dx) y w h layer = true →
      (0 < dx →
        (resolveXAxis tm layer x y w h dx tw).1 =
          ⌊(x + dx + w) / tw⌋ * tw - w - collisionEpsilon) ∧
      (dx < 0 →
        (resolveXAxis tm layer x y w h dx tw).1 =
          (⌊(x + dx) / tw⌋ + 1) * tw + collisionEpsilon)) ∧
    (tm.OverlapsTiles x (y + dy) w h layer = true →
      (0 < dy →
        (resolveYAxis tm layer x y w h dy th).2 =
          ⌊(y + dy + h) / th⌋ * th - h - collisionEpsilon) ∧
      (dy < 0 →
        (resolveYAxis tm layer x y w h dy th).2 =
          (⌊(y + dy) / th⌋ + 1) * th + collisionEpsilon)) := by
  refine ⟨resolveXAxis_snd tm layer x y w h dx tw,
    resolveYAxis_fst tm layer x y w h dy th,
    fun hov => ⟨fun hdx => ?_, fun hdx => ?_⟩,
    fun hov => ⟨fun hdy => ?_, fun hdy => ?_⟩⟩
  · simp [resolveXAxis, hov, hdx]
  · simp [resolveXAxis, hov, hdx, not_lt_of_lt hdx]
  · simp [resolveYAxis, hov, hdy]
  · simp [resolveYAxis, hov, hdy, not_lt_of_lt hdy]

/-- Witness for C2 on `wallMap`: a 16×16 entity at `(10, 8)` moving right
by 10 overlaps the wall column, and `resolveXAxis` clamps its X to the
claimed tile-edge expression. -/
theorem resolve_axes_clamp_to_tile_edge_witness :
    wallMap.OverlapsTiles (10 + 10) 8 16 16 0 = true ∧
    (resolveXAxis wallMap 0 10 8 16 16 10 16).1 =
      ⌊((10 : ℚ) + 10 + 16) / 16⌋ * 16 - 16 - collisionEpsilon := by
  have hov : wallMap.OverlapsTiles (10 + 10) 8 16 16 0 = true := by
    unfold TileMap.OverlapsTiles
    norm_num [TileMap.tileAt, wallMap]
    decide
  exact ⟨hov,
    ((resolve_axes_clamp_to_tile_edge wallMap 0 10 8 16 16 10 0 16 16).2.2.1
      hov).1 (by norm_num)⟩

/-- **C1.** The per-entity displacement of `MovementSystem.Update` is
resolved axis-separated — X first, then Y from the already-resolved X —
and in particular, when the X move is blocked by a tile but the Y path at
the resolved X is clear, the full Y displacement is still applied
(sliding along the wall). -/
theorem movement_axis_separated_sliding (tm : TileMap) (layer : ℕ)
    (x y w h dx dy : ℚ) :
    resolveMove tm layer x y w h dx dy =
      resolveYAxis tm layer
        (resolveXAxis tm layer x y w h dx tm.tileW).1
        (resolveXAxis tm layer x y w h dx tm.tileW).2 w h dy tm.tileH ∧
    (tm.OverlapsTiles (x + dx) y w h layer = true →
      tm.OverlapsTiles (resolveXAxis tm layer x y w h dx tm.tileW).1
        (y + dy) w h layer = false →
      resolveMove tm layer x y w h dx dy =
        ((resolveXAxis tm layer x y w h dx tm.tileW).1, y + dy)) := by
  refine ⟨rfl, fun _ hclear => ?_⟩
  unfold resolveMove
  rw [resolveXAxis_snd]
  unfold resolveYAxis
  rw [hclear]
  simp

/-- Witness for C1 on `wallMap`: a 16×16 entity at `(10, 8)` with
displacement `(10, 6)` is blocked on X by the wall column, the Y path at
the clamped X is clear, and the resolved move keeps the full Y step. -/
theorem movement_axis_separated_sliding_witness :
    wallMap.OverlapsTiles (10 + 10) 8 16 16 0 = true ∧
    wallMap.OverlapsTiles (resolveXAxis wallMap 0 10 8 16 16 10 16).1
      (8 + 6) 16 16 0 = false ∧
    resolveMove wallMap 0 10 8 16 16 10 6 =
      ((resolveXAxis wallMap 0 10 8 16 16 10 16).1, 8 + 6) := by
  have hov : wallMap.OverlapsTiles (10 + 10) 8 16 16 0 = true := by
    unfold TileMap.OverlapsTiles
    norm_num [TileMap.tileAt, wallMap]
    decide
  have hX : (resolveXAxis wallMap 0 10 8 16 16 10 16).1 = 15999 / 1000 := by
    unfold resolveXAxis
    rw [hov]
    norm_num [collisionEpsilon]
  have hclear : wallMap.OverlapsTiles (resolveXAxis wallMap 0 10 8 16 16 10 16).1
      (8 + 6) 16 16 0 = false := by
    rw [hX]
    unfold TileMap.OverlapsTiles
    norm_num [TileMap.tileAt, wallMap]
    decide
  exact ⟨hov, hclear,
    (movement_axis_separated_sliding wallMap 0 10 8 16 16 10 6).2 hov hclear⟩

/-- **C8 (amended).** A rectangle whose covered tile range lies entirely
outside the map — exclusive right/bottom tile index at most `0`, or
left/top tile index at least the map width/height — makes `OverlapsTiles`
return `true`, so the world boundary is reported as a collision exactly
like a solid tile.  This alone does not keep entities inside the map:
see the counterexample below, where the `dx > 0` clamp of `resolveXAxis`
pushes an overshooting entity to a tile edge beyond the map. -/
theorem overlaps_outside_map_true (tm : TileMap) (x y w h : ℚ) (layer : ℕ)
    (hout : ⌊(x + w - 1) / (tm.tileW : ℚ)⌋ + 1 ≤ 0 ∨
      ⌊(y + h - 1) / (tm.tileH : ℚ)⌋ + 1 ≤ 0 ∨
      tm.mapW ≤ ⌊x / (tm.tileW : ℚ)⌋ ∨
      tm.mapH ≤ ⌊y / (tm.tileH : ℚ)⌋) :
    tm.OverlapsTiles x y w h layer = true := by
  simp only [TileMap.OverlapsTiles]
  split
  · rfl
  · rename_i hc
    exact absurd hout hc

/-- Witness for C8 on `zeroMap`: the rectangle `(-100, 0, 1, 1)` lies
entirely left of the map and `OverlapsTiles` reports a collision even
though every stored tile id is zero. -/
theorem overlaps_outside_map_true_witness :
    (⌊((-100 : ℚ) + 1 - 1) / ((zeroMap.tileW : ℤ) : ℚ)⌋ + 1 ≤ 0 ∨
      ⌊((0 : ℚ) + 1 - 1) / ((zeroMap.tileH : ℤ) : ℚ)⌋ + 1 ≤ 0 ∨
      zeroMap.mapW ≤ ⌊(-100 : ℚ) / ((zeroMap.tileW : ℤ) : ℚ)⌋ ∨
      zeroMap.mapH ≤ ⌊(0 : ℚ) / ((zeroMap.tileH : ℤ) : ℚ)⌋) ∧
    zeroMap.OverlapsTiles (-100) 0 1 1 0 = true := by
  have hout : ⌊((-100 : ℚ) + 1 - 1) / ((zeroMap.tileW : ℤ) : ℚ)⌋ + 1 ≤ 0 ∨
      ⌊((0 : ℚ) + 1 - 1) / ((zeroMap.tileH : ℤ) : ℚ)⌋ + 1 ≤ 0 ∨
      zeroMap.mapW ≤ ⌊(-100 : ℚ) / ((zeroMap.tileW : ℤ) : ℚ)⌋ ∨
      zeroMap.mapH ≤ ⌊(0 : ℚ) / ((zeroMap.tileH : ℤ) : ℚ)⌋ := by
    left
    norm_num [zeroMap]
  exact ⟨hout, overlaps_outside_map_true zeroMap (-100) 0 1 1 0 hout⟩

/-- Counterexample to C8's containment consequence: on the all-zero
2×2 `zeroMap` (pixel extent `[0, 32) × [0, 32)`) a 16×16 entity fully
inside the map at `(8, 8)` moving right by `100` is reported as
colliding with the world bound, yet the `dx > 0` clamp pushes it to
`X = 95.999`, entirely outside the map — the entity leaves the map
through `MovementSystem`. -/
theorem movement_escapes_map_counterexample :
    (0 : ℚ) ≤ 8 ∧ (8 : ℚ) + 16 ≤ (zeroMap.mapW : ℚ) * zeroMap.tileW ∧
    zeroMap.OverlapsTiles (8 + 100) 8 16 16 0 = true ∧
    (zeroMap.mapW : ℚ) * zeroMap.tileW ≤
      (resolveMove zeroMap 0 8 8 16 16 100 0).1 ∧
    (resolveMove zeroMap 0 8 8 16 16 100 0).2 = 8 := by
  have hov1 : zeroMap.OverlapsTiles (8 + 100) 8 16 16 0 = true := by
    unfold TileMap.OverlapsTiles
    norm_num [zeroMap]
  have hX : (resolveXAxis zeroMap 0 8 8 16 16 100
      ((zeroMap.tileW : ℤ) : ℚ)).1 = 95999 / 1000 := by
    unfold resolveXAxis
    rw [hov1]
    norm_num [collisionEpsilon, zeroMap]
  have hov2 : zeroMap.OverlapsTiles (95999 / 1000) (8 + 0) 16 16 0 =
      true := by
    unfold TileMap.OverlapsTiles
    norm_num [zeroMap]
  have hres : resolveMove zeroMap 0 8 8 16 16 100 0 =
      (95999 / 1000, 8) := by
    unfold resolveMove
    rw [resolveXAxis_snd, hX]
    unfold resolveYAxis
    rw [hov2]
    norm_num
  refine ⟨by norm_num, by norm_num [zeroMap], hov1, ?_, ?_⟩
  · rw [hres]
    norm_num [zeroMap]
  · rw [hres]

/-- The selection loop returns `none` only when it started with no
candidate and no transition in the list is satisfied. -/
theorem findBestAux_eq_none (state : StateComponent) :
    ∀ (ts : List AnimationTransition) (acc : Option AnimationTransition),
      findBestAux state acc ts = none →
      acc = none ∧ ∀ t ∈ ts, t.condition state = false
  | [], _, h => ⟨h, by simp⟩
  | t :: ts, acc, h => by
    obtain ⟨hacc, hall⟩ :=
      findBestAux_eq_none state ts (pickTransition state acc t) h
    unfold pickTransition at hacc
    by_cases hc : t.condition state
    · rw [if_pos hc] at hacc
      cases acc with
      | none => simp at hacc
      | some b =>
        by_cases hbt : b.priority < t.priority <;> simp [hbt] at hacc
    · rw [if_neg hc] at hacc
      refine ⟨hacc, fun u hu => ?_⟩
      rcases List.mem_cons.mp hu with rfl | hu2
      · simpa using hc
      · exact hall u hu2

/-- In a cons list, a candidate position shifts by one when the head
transition, if satisfied, has strictly smaller priority than the
candidate. -/
theorem spec_shift (state : StateComponent) (t c : AnimationTransition)
    (ts : List AnimationTransition)
    (htle : t.condition state = true → t.priority < c.priority)
    (hex : ∃ i, ∃ hi : i < ts.length, ts.get ⟨i, hi⟩ = c ∧
      (∀ j, ∀ hj : j < ts.length, (ts.get ⟨j, hj⟩).condition state = true →
        (ts.get ⟨j, hj⟩).priority ≤ c.priority) ∧
      (∀ j, ∀ hj : j < ts.length, j < i →
        (ts.get ⟨j, hj⟩).condition state = true →
        (ts.get ⟨j, hj⟩).priority < c.priority)) :
    ∃ i, ∃ hi : i < (t :: ts).length, (t :: ts).get ⟨i, hi⟩ = c ∧
      (∀ j, ∀ hj : j < (t :: ts).length,
        ((t :: ts).get ⟨j, hj⟩).condition state = true →
        ((t :: ts).get ⟨j, hj⟩).priority ≤ c.priority) ∧
      (∀ j, ∀ hj : j < (t :: ts).length, j < i →
        ((t :: ts).get ⟨j, hj⟩).condition state = true →
        ((t :: ts).get ⟨j, hj⟩).priority < c.priority) := by
  obtain ⟨i, hi, hget, hall, hbef⟩ := hex
  refine ⟨i + 1, Nat.succ_lt_succ hi, hget, ?_, ?_⟩
  · intro j hj hs
    cases j with
    | zero => exact le_of_lt (htle hs)
    | succ k => exact hall k (Nat.lt_of_succ_lt_succ hj) hs
  · intro j hj hji hs
    cases j with
    | zero => exact htle hs
    | succ k =>
      exact hbef k (Nat.lt_of_succ_lt_succ hj) (Nat.lt_of_succ_lt_succ hji) hs

/-- A head transition dominating every satisfied transition of the tail is
itself a valid candidate at position `0`. -/
theorem spec_head (state : StateComponent) (t : AnimationTransition)
    (ts : List AnimationTransition)
    (hrest : ∀ u ∈ ts, u.condition state = true → u.priority ≤ t.priority) :
    ∃ i, ∃ hi : i < (t :: ts).length, (t :: ts).get ⟨i, hi⟩ = t ∧
      (∀ j, ∀ hj : j < (t :: ts).length,
        ((t :: ts).get ⟨j, hj⟩).condition state = true →
        ((t :: ts).get ⟨j, hj⟩).priority ≤ t.priority) ∧
      (∀ j, ∀ hj : j < (t :: ts).length, j < i →
        ((t :: ts).get ⟨j, hj⟩).condition state = true →
        ((t :: ts).get ⟨j, hj⟩).priority < t.priority) := by
  refine ⟨0, Nat.succ_pos _, rfl, ?_, ?_⟩
  · intro j hj hs
    cases j with
    | zero => exact le_refl _
    | succ k =>
      exact hrest _ (List.get_mem ts _ (Nat.lt_of_succ_lt_succ hj)) hs
  · intro j hj hji _
    exact absurd hji (Nat.not_lt_zero j)

/-- Characterization of the selection loop: a returned candidate either is
the untouched accumulator dominating every satisfied transition of the
list, or is a satisfied list element that strictly beats the accumulator
and every earlier satisfied element, and dominates every satisfied
element. -/
theorem findBestAux_spec (state : StateComponent) :
    ∀ (ts : List AnimationTransition) (acc : Option AnimationTransition)
      (c : AnimationTransition), findBestAux state acc ts = some c →
      (acc = some c ∧
        ∀ t ∈ ts, t.condition state = true → t.priority ≤ c.priority) ∨
      (c.condition state = true ∧
        (∀ b, acc = some b → b.priority < c.priority) ∧
        ∃ i, ∃ hi : i < ts.length,
          ts.get ⟨i, hi⟩ = c ∧
          (∀ j, ∀ hj : j < ts.length,
            (ts.get ⟨j, hj⟩).condition state = true →
            (ts.get ⟨j, hj⟩).priority ≤ c.priority) ∧
          (∀ j, ∀ hj : j < ts.length, j < i →
            (ts.get ⟨j, hj⟩).condition state = true →
            (ts.get ⟨j, hj⟩).priority < c.priority))
  | [], _, _, h => Or.inl ⟨h, by simp⟩
  | t :: ts, acc, c, h => by
    have ih := findBestAux_spec state ts (pickTransition state acc t) c h
    by_cases hc : t.condition state
    · cases acc with
      | none =>
        have hacc : pickTransition state none t = some t := by
          simp [pickTransition, hc]
        rw [hacc] at ih
        rcases ih with ⟨hec, hrest⟩ | ⟨hsat, hlt, hex⟩
        · obtain rfl : t = c := by simpa using hec
          exact Or.inr ⟨hc, fun b hb => by simp at hb,
            spec_head state t ts hrest⟩
        · exact Or.inr ⟨hsat, fun b hb => by simp at hb,
            spec_shift state t c ts (fun _ => hlt t rfl) hex⟩
      | some b =>
        by_cases hbt : b.priority < t.priority
        · have hacc : pickTransition state (some b) t = some t := by
            simp [pickTransition, hc, hbt]
          rw [hacc] at ih
          rcases ih with ⟨hec, hrest⟩ | ⟨hsat, hlt, hex⟩
          · obtain rfl : t = c := by simpa using hec
            refine Or.inr ⟨hc, ?_, spec_head state t ts hrest⟩
            intro b2 hb2
            obtain rfl : b = b2 := by simpa using hb2
            exact hbt
          · refine Or.inr ⟨hsat, ?_,
              spec_shift state t c ts (fun _ => hlt t rfl) hex⟩
            intro b2 hb2
            obtain rfl : b = b2 := by simpa using hb2
            exact lt_trans hbt (hlt t rfl)
        · have hacc : pickTransition state (some b) t = some b := by
            simp [pickTransition, hc, hbt]
          rw [hacc] at ih
          rcases ih with ⟨hec, hrest⟩ | ⟨hsat, hlt, hex⟩
          · obtain rfl : b = c := by simpa using hec
            refine Or.inl ⟨rfl, fun u hu hs => ?_⟩
            rcases List.mem_cons.mp hu with rfl | hu2
            · exact le_of_not_lt hbt
            · exact hrest u hu2 hs
          · have hbc : b.priority < c.priority := hlt b rfl
            refine Or.inr ⟨hsat, ?_, spec_shift state t c ts
              (fun _ => lt_of_le_of_lt (le_of_not_lt hbt) hbc) hex⟩
            intro b2 hb2
            obtain rfl : b = b2 := by simpa using hb2
            exact hbc
    · have hacc : pickTransition state acc t = acc := by
        simp [pickTransition, hc]
      rw [hacc] at ih
      rcases ih with ⟨hec, hrest⟩ | ⟨hsat, hlt, hex⟩
      · refine Or.inl ⟨hec, fun u hu hs => ?_⟩
        rcases List.mem_cons.mp hu with rfl | hu2
        · exact absurd hs (by simpa using hc)
        · exact hrest u hu2 hs
      · exact Or.inr ⟨hsat, hlt, spec_shift state t c ts
          (fun hs => absurd hs (by simpa using hc)) hex⟩

/-- Every read of the all-zero map yields tile id `0`. -/
theorem zeroMap_tileAt (layer : ℕ) (tx ty : ℤ) :
    zeroMap.tileAt layer tx ty = 0 := by
  rcases layer with _ | l
  · show ([0, 0, 0, 0] : List ℤ).getD (ty * zeroMap.mapW + tx).toNat 0 = 0
    rcases hn : (ty * zeroMap.mapW + tx).toNat with _ | _ | _ | _ | n <;> rfl
  · rfl

/-- A nested scan over two integer ranges finds a hit exactly when some
integer pair within the bounds satisfies the predicate. -/
theorem double_range_iff (A B C D : ℤ) (Q : ℤ → ℤ → Prop) :
    (∃ i : ℕ, i < (B - A).toNat ∧
      ∃ j : ℕ, j < (D - C).toNat ∧ Q (A + i) (C + j)) ↔
    (∃ ty tx : ℤ, A ≤ ty ∧ ty < B ∧ C ≤ tx ∧ tx < D ∧ Q ty tx) := by
  constructor
  · rintro ⟨i, hi, j, hj, hq⟩
    exact ⟨A + i, C + j, by omega, by omega, by omega, by omega, hq⟩
  · rintro ⟨ty, tx, h1, h2, h3, h4, hq⟩
    refine ⟨(ty - A).toNat, by omega, (tx - C).toNat, by omega, ?_⟩
    have e1 : A + (((ty - A).toNat : ℕ) : ℤ) = ty := by omega
    have e2 : C + (((tx - C).toNat : ℕ) : ℤ) = tx := by omega
    rw [e1, e2]
    exact hq

/-- Floor-division upper bound as a multiplicative strict bound. -/
theorem floor_div_le_iff {t : ℤ} {q tw : ℚ} (htw : 0 < tw) :
    ⌊q / tw⌋ ≤ t ↔ q < ((t : ℚ) + 1) * tw := by
  rw [Int.floor_le_iff, div_lt_iff₀ htw]

/-- Floor-division lower bound as a multiplicative bound. -/
theorem le_floor_div_iff {t : ℤ} {q tw : ℚ} (htw : 0 < tw) :
    t ≤ ⌊q / tw⌋ ↔ (t : ℚ) * tw ≤ q := by
  rw [Int.le_floor, le_div_iff₀ htw]

/-- The out-of-range guard of `OverlapsTiles` holds exactly when the
rectangle's closed pixel span misses the map's pixel extent. -/
theorem guard_iff_spanOutside (tm : TileMap) (x y w h : ℚ)
    (htw : (0 : ℚ) < tm.tileW) (hth : (0 : ℚ) < tm.tileH) :
    (⌊(x + w - 1) / (tm.tileW : ℚ)⌋ + 1 ≤ 0 ∨
      ⌊(y + h - 1) / (tm.tileH : ℚ)⌋ + 1 ≤ 0 ∨
      tm.mapW ≤ ⌊x / (tm.tileW : ℚ)⌋ ∨
      tm.mapH ≤ ⌊y / (tm.tileH : ℚ)⌋) ↔
    spanOutsideMap tm x y w h := by
  unfold spanOutsideMap
  have h1 : (⌊(x + w - 1) / (tm.tileW : ℚ)⌋ + 1 ≤ 0) ↔ x + w - 1 < 0 := by
    rw [show (⌊(x + w - 1) / (tm.tileW : ℚ)⌋ + 1 ≤ 0) ↔
      (⌊(x + w - 1) / (tm.tileW : ℚ)⌋ ≤ -1) from by omega,
      floor_div_le_iff htw]
    norm_num
  have h2 : (⌊(y + h - 1) / (tm.tileH : ℚ)⌋ + 1 ≤ 0) ↔ y + h - 1 < 0 := by
    rw [show (⌊(y + h - 1) / (tm.tileH : ℚ)⌋ + 1 ≤ 0) ↔
      (⌊(y + h - 1) / (tm.tileH : ℚ)⌋ ≤ -1) from by omega,
      floor_div_le_iff hth]
    norm_num
  have h3 : (tm.mapW ≤ ⌊x / (tm.tileW : ℚ)⌋) ↔
      (tm.mapW : ℚ) * tm.tileW ≤ x := le_floor_div_iff htw
  have h4 : (tm.mapH ≤ ⌊y / (tm.tileH : ℚ)⌋) ↔
      (tm.mapH : ℚ) * tm.tileH ≤ y := le_floor_div_iff hth
  rw [h1, h2, h3, h4]

/-- The clamped double scan of `OverlapsTiles` hits a non-zero tile
exactly when the rectangle's closed pixel span covers an in-map non-zero
tile cell. -/
theorem scan_iff_covers (tm : TileMap) (x y w h : ℚ) (layer : ℕ)
    (htw : (0 : ℚ) < tm.tileW) (hth : (0 : ℚ) < tm.tileH) :
    ((List.range
        ((min (⌊(y + h - 1) / (tm.tileH : ℚ)⌋ + 1) tm.mapH -
          max ⌊y / (tm.tileH : ℚ)⌋ 0).toNat)).any fun i =>
      (List.range
          ((min (⌊(x + w - 1) / (tm.tileW : ℚ)⌋ + 1) tm.mapW -
            max ⌊x / (tm.tileW : ℚ)⌋ 0).toNat)).any fun j =>
        decide (tm.tileAt layer (max ⌊x / (tm.tileW : ℚ)⌋ 0 + j)
          (max ⌊y / (tm.tileH : ℚ)⌋ 0 + i) ≠ 0)) = true ↔
    coversNonzeroTile tm x y w h layer := by
  simp only [List.any_eq_true, List.mem_range, decide_eq_true_eq]
  rw [show (∃ i, i < (min (⌊(y + h - 1) / (tm.tileH : ℚ)⌋ + 1) tm.mapH -
        max ⌊y / (tm.tileH : ℚ)⌋ 0).toNat ∧
      ∃ j, j < (min (⌊(x + w - 1) / (tm.tileW : ℚ)⌋ + 1) tm.mapW -
        max ⌊x / (tm.tileW : ℚ)⌋ 0).toNat ∧
      tm.tileAt layer (max ⌊x / (tm.tileW : ℚ)⌋ 0 + j)
        (max ⌊y / (tm.tileH : ℚ)⌋ 0 + i) ≠ 0) ↔
      ∃ ty tx : ℤ, max ⌊y / (tm.tileH : ℚ)⌋ 0 ≤ ty ∧
        ty < min (⌊(y + h - 1) / (tm.tileH : ℚ)⌋ + 1) tm.mapH ∧
        max ⌊x / (tm.tileW : ℚ)⌋ 0 ≤ tx ∧
        tx < min (⌊(x + w - 1) / (tm.tileW : ℚ)⌋ + 1) tm.mapW ∧
        tm.tileAt layer tx ty ≠ 0 from
    double_range_iff _ _ _ _ (fun ty tx => tm.tileAt layer tx ty ≠ 0)]
  unfold coversNonzeroTile
  constructor
  · rintro ⟨ty, tx, h1, h2, h3, h4, hnz⟩
    rw [max_le_iff] at h1 h3
    rw [lt_min_iff] at h2 h4
    refine ⟨tx, ty, h3.2, h4.2, h1.2, h2.2, ?_, ?_, ?_, ?_, hnz⟩
    · have hb : tx ≤ ⌊(x + w - 1) / (tm.tileW : ℚ)⌋ := by omega
      have := (le_floor_div_iff htw).mp hb
      push_cast at this ⊢
      linarith
    · have hb : ⌊x / (tm.tileW : ℚ)⌋ ≤ tx := h3.1
      have := (floor_div_le_iff htw).mp hb
      push_cast at this ⊢
      linarith
    · have hb : ty ≤ ⌊(y + h - 1) / (tm.tileH : ℚ)⌋ := by omega
      have := (le_floor_div_iff hth).mp hb
      push_cast at this ⊢
      linarith
    · have hb : ⌊y / (tm.tileH : ℚ)⌋ ≤ ty := h1.1
      have := (floor_div_le_iff hth).mp hb
      push_cast at this ⊢
      linarith
  · rintro ⟨tx, ty, h0x, hxW, h0y, hyH, hm1, hm2, hm3, hm4, hnz⟩
    refine ⟨ty, tx, ?_, ?_, ?_, ?_, hnz⟩
    · rw [max_le_iff]
      refine ⟨?_, h0y⟩
      rw [floor_div_le_iff hth]
      push_cast at hm4 ⊢
      linarith
    · rw [lt_min_iff]
      refine ⟨?_, hyH⟩
      have : ty ≤ ⌊(y + h - 1) / (tm.tileH : ℚ)⌋ := by
        rw [le_floor_div_iff hth]
        linarith
      omega
    · rw [max_le_iff]
      refine ⟨?_, h0x⟩
      rw [floor_div_le_iff htw]
      push_cast at hm2 ⊢
      linarith
    · rw [lt_min_iff]
      refine ⟨?_, hxW⟩
      have : tx ≤ ⌊(x + w - 1) / (tm.tileW : ℚ)⌋ := by
        rw [le_floor_div_iff htw]
        linarith
      omega

/-- Counterexample to C3 as stated: on the all-zero `zeroMap` the
rectangle `(-100, 0, 1, 1)` overlaps no tile at all — let alone a
non-zero one — yet `OverlapsTiles` returns `true`, because a rectangle
entirely outside the map is reported as colliding. -/
theorem overlaps_iff_nonzero_tile_counterexample :
    ¬ (zeroMap.OverlapsTiles (-100) 0 1 1 0 = true ↔
        coversNonzeroTile zeroMap (-100) 0 1 1 0) := by
  intro h
  have hg : ⌊((-100 : ℚ) + 1 - 1) / (zeroMap.tileW : ℚ)⌋ + 1 ≤ 0 ∨
      ⌊((0 : ℚ) + 1 - 1) / (zeroMap.tileH : ℚ)⌋ + 1 ≤ 0 ∨
      zeroMap.mapW ≤ ⌊(-100 : ℚ) / (zeroMap.tileW : ℚ)⌋ ∨
      zeroMap.mapH ≤ ⌊(0 : ℚ) / (zeroMap.tileH : ℚ)⌋ := by
    left
    norm_num [zeroMap]
  have htrue : zeroMap.OverlapsTiles (-100) 0 1 1 0 = true := by
    simp only [TileMap.OverlapsTiles]
    rw [if_pos hg]
  obtain ⟨tx, ty, _, _, _, _, _, _, _, _, hnz⟩ := h.mp htrue
  exact hnz (zeroMap_tileAt 0 tx ty)

/-- **C3 (amended).** For positive tile dimensions, `OverlapsTiles`
returns `true` iff the rectangle's closed pixel span
`[x, x+w-1] × [y, y+h-1]` meets an in-map tile cell holding a non-zero
id, **or** that span lies entirely outside the map (in which case the
world bound itself is reported as a collision). -/
theorem overlaps_iff_covers_or_outside (tm : TileMap) (x y w h : ℚ)
    (layer : ℕ) (htw : 0 < tm.tileW) (hth : 0 < tm.tileH) :
    tm.OverlapsTiles x y w h layer = true ↔
      spanOutsideMap tm x y w h ∨ coversNonzeroTile tm x y w h layer := by
  have htw2 : (0 : ℚ) < tm.tileW := by exact_mod_cast htw
  have hth2 : (0 : ℚ) < tm.tileH := by exact_mod_cast hth
  simp only [TileMap.OverlapsTiles]
  split
  · rename_i hcond
    exact iff_of_true rfl
      (Or.inl ((guard_iff_spanOutside tm x y w h htw2 hth2).mp hcond))
  · rename_i hcond
    have hnspan : ¬ spanOutsideMap tm x y w h := fun hs =>
      hcond ((guard_iff_spanOutside tm x y w h htw2 hth2).mpr hs)
    rw [or_iff_right hnspan]
    exact scan_iff_covers tm x y w h layer htw2 hth2

/-- Witness for the amended C3 on `wallMap`: the equivalence instantiated
at the 16×16 rectangle at `(16, 0)`, which reaches the wall column, with
both tile-dimension positivity hypotheses discharged concretely. -/
theorem overlaps_iff_covers_or_outside_witness :
    0 < wallMap.tileW ∧ 0 < wallMap.tileH ∧
    (wallMap.OverlapsTiles 16 0 16 16 0 = true ↔
      spanOutsideMap wallMap 16 0 16 16 ∨
        coversNonzeroTile wallMap 16 0 16 16 0) :=
  ⟨by decide, by decide,
    overlaps_iff_covers_or_outside wallMap 16 0 16 16 0 (by decide)
      (by decide)⟩

/-- **C5.** The clip name is the state name concatenated with `"_"` and a
direction suffix — `"left"`/`"right"` whenever the facing X component is
non-zero (X is consulted before Y), otherwise `"up"`/`"down"` from the Y
component (defaulting to `"down"`) — except for states explicitly marked
non-directional, whose clip name is the bare state name. -/
theorem clip_name_from_state_and_direction (sm : AnimationStateMachine)
    (state : AnimationState) (dir : Vec2I) :
    (sm.directionalStates state = some false →
      buildAnimationName sm state dir = state) ∧
    (sm.directionalStates state ≠ some false →
      buildAnimationName sm state dir =
        state ++ "_" ++ DirectionToString dir) ∧
    (dir.X ≠ 0 →
      DirectionToString dir = if dir.X < 0 then "left" else "right") ∧
    (dir.X = 0 →
      DirectionToString dir = if dir.Y < 0 then "up" else "down") := by
  refine ⟨fun hnd => ?_, fun hd => ?_, fun hx => ?_, fun hx => ?_⟩
  · simp [buildAnimationName, hnd]
  · rcases hds : sm.directionalStates state with _ | b
    · simp [buildAnimationName, hds]
    · cases b
      · exact absurd hds hd
      · simp [buildAnimationName, hds]
  · rcases lt_or_gt_of_ne hx with h | h
    · simp [DirectionToString, h]
    · simp [DirectionToString, h, not_lt_of_lt h]
  · by_cases hy : dir.Y < 0
    · simp [DirectionToString, hx, hy]
    · by_cases hy2 : 0 < dir.Y <;>
        simp [DirectionToString, hx, hy, hy2]

/-- Witness for C5 on `demoMachine`: `"death"` is non-directional, and
`"walk"` facing `(-1, 0)` yields `walk_left`. -/
theorem clip_name_from_state_and_direction_witness :
    buildAnimationName demoMachine "death" movingLeftState.FacingDir =
      "death" ∧
    buildAnimationName demoMachine "walk" movingLeftState.FacingDir =
      "walk" ++ "_" ++ "left" := by
  have h1 := (clip_name_from_state_and_direction demoMachine "death"
    movingLeftState.FacingDir).1 (by simp [demoMachine])
  have hc := clip_name_from_state_and_direction demoMachine "walk"
    movingLeftState.FacingDir
  have h2 := hc.2.1 (by simp [demoMachine])
  have h3 := hc.2.2.1 (by simp [movingLeftState])
  refine ⟨h1, ?_⟩
  rw [h2, h3]
  simp [movingLeftState]

/-- **C7.** `PositionStore.GetPosition` and `StateStore.GetState` panic
(modelled as the `Except.error` branch) exactly when the id has no
attached component, and otherwise return the stored component; a missing
component is never signalled through a returned error value. -/
theorem store_getters_panic_iff_missing (ps : PositionStore)
    (ss : StateStore) (id : EntityId) :
    ((∃ msg, ps.GetPosition id = Except.error msg) ↔
      ps.positions.lookup id = none) ∧
    (∀ c, ps.positions.lookup id = some c →
      ps.GetPosition id = Except.ok c) ∧
    ((∃ msg, ss.GetState id = Except.error msg) ↔
      ss.states.lookup id = none) ∧
    (∀ c, ss.states.lookup id = some c →
      ss.GetState id = Except.ok c) := by
  refine ⟨?_, ?_, ?_, ?_⟩
  · cases h : ps.positions.lookup id <;>
      simp [PositionStore.GetPosition, h]
  · intro c h
    simp [PositionStore.GetPosition, h]
  · cases h : ss.states.lookup id <;>
      simp [StateStore.GetState, h]
  · intro c h
    simp [StateStore.GetState, h]

/-- Witness for C7 on the demo stores: id 1 is attached and returned
without error; id 2 is missing and panics. -/
theorem store_getters_panic_iff_missing_witness :
    demoPositionStore.GetPosition 1 = Except.ok demoPosition ∧
    demoStateStore.GetState 1 = Except.ok idleState ∧
    (∃ msg, demoPositionStore.GetPosition 2 = Except.error msg) := by
  refine ⟨(store_getters_panic_iff_missing demoPositionStore demoStateStore
      1).2.1 demoPosition rfl,
    (store_getters_panic_iff_missing demoPositionStore demoStateStore
      1).2.2.2 idleState rfl,
    (store_getters_panic_iff_missing demoPositionStore demoStateStore
      2).1.mpr rfl⟩

/-- **C10.** When no outgoing transition of the current state is
satisfied, `AnimationStateMachine.Update` leaves the current state
unchanged and returns the clip name built from that unchanged state and
the given facing direction. -/
theorem smUpdate_no_satisfied_keeps_state (sm : AnimationStateMachine)
    (state : StateComponent)
    (h : ∀ t ∈ sm.transitions sm.currentState, t.condition state = false) :
    (smUpdate sm state).1.currentState = sm.currentState ∧
    (smUpdate sm state).2.1 = sm.currentState ∧
    (smUpdate sm state).2.2 =
      buildAnimationName sm sm.currentState state.FacingDir := by
  have hb : findBestTransition (sm.transitions sm.currentState) state =
      none :=
    findBestAux_unsat state (sm.transitions sm.currentState) none h
  simp [smUpdate, hb]

/-- Witness for C10 on `demoMachine`: with a non-moving state component no
transition out of `"idle"` fires and the clip stays `idle_down`. -/
theorem smUpdate_no_satisfied_keeps_state_witness :
    (∀ t ∈ demoMachine.transitions demoMachine.currentState,
      t.condition idleState = false) ∧
    (smUpdate demoMachine idleState).1.currentState = "idle" ∧
    (smUpdate demoMachine idleState).2.2 =
      buildAnimationName demoMachine "idle" idleState.FacingDir := by
  have h : ∀ t ∈ demoMachine.transitions demoMachine.currentState,
      t.condition idleState = false := by
    intro t ht
    have ht2 : t ∈
        [ { toState := "walk", condition := fun st => st.IsMoving,
            priority := 1 },
          { toState := "attackA", condition := fun st => st.IsMoving,
            priority := 2 },
          { toState := "attackB", condition := fun st => st.IsMoving,
            priority := 2 } ] := by
      simpa [demoMachine] using ht
    fin_cases ht2 <;> rfl
  have hc := smUpdate_no_satisfied_keeps_state demoMachine idleState h
  exact ⟨h, hc.1, hc.2.2⟩

/-- **C4.** When some transition out of the current state is satisfied,
`AnimationStateMachine.Update` switches to the target of the selected
transition, which is satisfied, carries the highest priority among all
satisfied transitions, and strictly beats every earlier-declared satisfied
transition (so equal priorities resolve to the first-added one). -/
theorem smUpdate_selects_highest_priority_earliest
    (sm : AnimationStateMachine) (state : StateComponent)
    (hsat : ∃ t ∈ sm.transitions sm.currentState,
      t.condition state = true) :
    ∃ c, findBestTransition (sm.transitions sm.currentState) state =
        some c ∧
      (smUpdate sm state).1.currentState = c.toState ∧
      (smUpdate sm state).2.1 = c.toState ∧
      c.condition state = true ∧
      ∃ i, ∃ hi : i < (sm.transitions sm.currentState).length,
        (sm.transitions sm.currentState).get ⟨i, hi⟩ = c ∧
        (∀ j, ∀ hj : j < (sm.transitions sm.currentState).length,
          ((sm.transitions sm.currentState).get ⟨j, hj⟩).condition state =
            true →
          ((sm.transitions sm.currentState).get ⟨j, hj⟩).priority ≤
            c.priority) ∧
        (∀ j, ∀ hj : j < (sm.transitions sm.currentState).length, j < i →
          ((sm.transitions sm.currentState).get ⟨j, hj⟩).condition state =
            true →
          ((sm.transitions sm.currentState).get ⟨j, hj⟩).priority <
            c.priority) := by
  cases hfb : findBestTransition (sm.transitions sm.currentState) state with
  | none =>
    obtain ⟨t, ht, hsat2⟩ := hsat
    have hfalse := (findBestAux_eq_none state
      (sm.transitions sm.currentState) none hfb).2 t ht
    rw [hsat2] at hfalse
    exact absurd hfalse (by simp)
  | some c =>
    have hspec := findBestAux_spec state (sm.transitions sm.currentState)
      none c hfb
    rcases hspec with ⟨habs, _⟩ | ⟨hcond, _, hex⟩
    · exact absurd habs (by simp)
    · refine ⟨c, rfl, ?_, ?_, hcond, hex⟩ <;> simp [smUpdate, hfb]

/-- Witness for C4 on `demoMachine` with a moving entity: all three
transitions out of `"idle"` are satisfied; the selected one is
`"attackA"`, the first-declared of the two priority-2 transitions. -/
theorem smUpdate_selects_highest_priority_earliest_witness :
    (∃ t ∈ demoMachine.transitions demoMachine.currentState,
      t.condition movingLeftState = true) ∧
    (∃ c, findBestTransition
        (demoMachine.transitions demoMachine.currentState)
        movingLeftState = some c ∧
      (smUpdate demoMachine movingLeftState).1.currentState = c.toState ∧
      (smUpdate demoMachine movingLeftState).2.1 = c.toState ∧
      c.condition movingLeftState = true ∧
      ∃ i, ∃ hi : i <
          (demoMachine.transitions demoMachine.currentState).length,
        (demoMachine.transitions demoMachine.currentState).get ⟨i, hi⟩ =
          c ∧
        (∀ j, ∀ hj : j <
            (demoMachine.transitions demoMachine.currentState).length,
          ((demoMachine.transitions demoMachine.currentState).get
            ⟨j, hj⟩).condition movingLeftState = true →
          ((demoMachine.transitions demoMachine.currentState).get
            ⟨j, hj⟩).priority ≤ c.priority) ∧
        (∀ j, ∀ hj : j <
            (demoMachine.transitions demoMachine.currentState).length,
          j < i →
          ((demoMachine.transitions demoMachine.currentState).get
            ⟨j, hj⟩).condition movingLeftState = true →
          ((demoMachine.transitions demoMachine.currentState).get
            ⟨j, hj⟩).priority < c.priority)) := by
  have hsat : ∃ t ∈ demoMachine.transitions demoMachine.currentState,
      t.condition movingLeftState = true := by
    refine ⟨{ toState := "walk"
              condition := (fun st => st.IsMoving)
              priority := 1 }, ?_, rfl⟩
    simp [demoMachine]
  exact ⟨hsat,
    smUpdate_selects_highest_priority_earliest demoMachine movingLeftState
      hsat⟩

/-- **C6.** Provided the world bounds are at least `viewport/Zoom` wide
and high, `Camera.CentreOn` leaves the camera origin inside the world
bounds shrunk by the visible extent:
`bounds.Min ≤ origin ≤ bounds.Max - viewport/Zoom` on each axis. -/
theorem centreOn_stays_within_bounds (c : Camera) (pos : Vec2)
    (hW : (c.viewportW : ℚ) / c.Zoom ≤
      (c.boundsMaxX : ℚ) - (c.boundsMinX : ℚ))
    (hH : (c.viewportH : ℚ) / c.Zoom ≤
      (c.boundsMaxY : ℚ) - (c.boundsMinY : ℚ)) :
    (c.boundsMinX : ℚ) ≤ (c.CentreOn pos).X ∧
    (c.CentreOn pos).X ≤ (c.boundsMaxX : ℚ) - (c.viewportW : ℚ) / c.Zoom ∧
    (c.boundsMinY : ℚ) ≤ (c.CentreOn pos).Y ∧
    (c.CentreOn pos).Y ≤ (c.boundsMaxY : ℚ) - (c.viewportH : ℚ) / c.Zoom := by
  unfold Camera.CentreOn Camera.clamp
  refine ⟨?_, ?_, ?_, ?_⟩ <;> simp only <;> split_ifs <;> linarith

/-- Witness for C6 on `demoCamera`: centring on `(5, 5)` clamps the
origin to `(0, 0)`, inside the shrunk bounds. -/
theorem centreOn_stays_within_bounds_witness :
    ((demoCamera.viewportW : ℚ) / demoCamera.Zoom ≤
      (demoCamera.boundsMaxX : ℚ) - (demoCamera.boundsMinX : ℚ)) ∧
    ((demoCamera.viewportH : ℚ) / demoCamera.Zoom ≤
      (demoCamera.boundsMaxY : ℚ) - (demoCamera.boundsMinY : ℚ)) ∧
    (demoCamera.boundsMinX : ℚ) ≤ (demoCamera.CentreOn ⟨5, 5⟩).X ∧
    (demoCamera.CentreOn ⟨5, 5⟩).X ≤
      (demoCamera.boundsMaxX : ℚ) -
        (demoCamera.viewportW : ℚ) / demoCamera.Zoom := by
  have hW : (demoCamera.viewportW : ℚ) / demoCamera.Zoom ≤
      (demoCamera.boundsMaxX : ℚ) - (demoCamera.boundsMinX : ℚ) := by
    norm_num [demoCamera]
  have hH : (demoCamera.viewportH : ℚ) / demoCamera.Zoom ≤
      (demoCamera.boundsMaxY : ℚ) - (demoCamera.boundsMinY : ℚ) := by
    norm_num [demoCamera]
  have hc := centreOn_stays_within_bounds demoCamera ⟨5, 5⟩ hW hH
  exact ⟨hW, hH, hc.1, hc.2.1⟩

/-- **C9.** For an animation whose (possibly just-switched) clip name is
defined in the library with `FirstFrame ≤ LastFrame`,
`AnimationSystem.Update` keeps `CurrentFrame` within
`[FirstFrame, LastFrame]`; when the frame counter passes `LastFrame` a
looping animation wraps to `FirstFrame` (still playing) and a non-looping
one holds at `LastFrame` with `Playing` set to `false`. -/
theorem animation_frame_stays_in_range
    (lib : String → Option AnimationDef) (desired : String)
    (a : AnimationComponent) (dt : ℚ) (d : AnimationDef)
    (hdef : lib desired = some d)
    (hfl : d.FirstFrame ≤ d.LastFrame)
    (hcur : desired = a.CurrentAnim →
      d.FirstFrame ≤ a.CurrentFrame ∧ a.CurrentFrame ≤ d.LastFrame) :
    (d.FirstFrame ≤ (updateAnimComponent lib desired a dt).CurrentFrame ∧
      (updateAnimComponent lib desired a dt).CurrentFrame ≤ d.LastFrame) ∧
    (desired = a.CurrentAnim → a.Playing = true →
      d.FrameTime ≤ a.ElapsedTime + dt → d.LastFrame < a.CurrentFrame + 1 →
      ((d.Loop = true →
        (updateAnimComponent lib desired a dt).CurrentFrame = d.FirstFrame ∧
        (updateAnimComponent lib desired a dt).Playing = true) ∧
       (d.Loop = false →
        (updateAnimComponent lib desired a dt).CurrentFrame = d.LastFrame ∧
        (updateAnimComponent lib desired a dt).Playing = false))) := by
  by_cases hne : desired = a.CurrentAnim
  · obtain ⟨h1, h2⟩ := hcur hne
    have hdef2 : lib a.CurrentAnim = some d := by rw [← hne]; exact hdef
    unfold updateAnimComponent advanceFrame
    simp only [hne, ne_eq, not_true_eq_false, if_false, hdef2]
    by_cases hp : a.Playing
    · simp only [hp, if_true]
      constructor
      · split_ifs <;> simp <;> omega
      · intro _ _ he hpass
        rw [if_pos he, if_pos hpass]
        constructor
        · intro hl
          simp [hl]
        · intro hl
          simp [hl]
    · simp only [hp, if_false]
      constructor
      · exact ⟨h1, h2⟩
      · intro _ hp2
        exact absurd hp2 (by simp [hp])
  · refine ⟨?_, fun he => absurd he hne⟩
    unfold updateAnimComponent advanceFrame
    simp only [hne, ne_eq, not_false_iff, if_true, hdef]
    split_ifs <;> simp <;> omega

/-- Witness for C9: `walkAnim` sits at the last frame of the looping
`walk_down` clip and one tick of `0.02` wraps it back to the first
frame. -/
theorem animation_frame_stays_in_range_witness :
    demoLibrary "walk_down" = some walkDef ∧
    walkDef.FirstFrame ≤ walkDef.LastFrame ∧
    (walkDef.FirstFrame ≤
        (updateAnimComponent demoLibrary "walk_down" walkAnim
          (2 / 100)).CurrentFrame ∧
      (updateAnimComponent demoLibrary "walk_down" walkAnim
          (2 / 100)).CurrentFrame ≤ walkDef.LastFrame) ∧
    (updateAnimComponent demoLibrary "walk_down" walkAnim
        (2 / 100)).CurrentFrame = walkDef.FirstFrame := by
  have hdef : demoLibrary "walk_down" = some walkDef := rfl
  have hfl : walkDef.FirstFrame ≤ walkDef.LastFrame := by
    norm_num [walkDef]
  have hcur : "walk_down" = walkAnim.CurrentAnim →
      walkDef.FirstFrame ≤ walkAnim.CurrentFrame ∧
      walkAnim.CurrentFrame ≤ walkDef.LastFrame := by
    intro _
    norm_num [walkDef, walkAnim]
  have hc := animation_frame_stays_in_range demoLibrary "walk_down"
    walkAnim (2 / 100) walkDef hdef hfl hcur
  have hwrap := (hc.2 rfl rfl (by norm_num [walkDef, walkAnim])
    (by norm_num [walkDef, walkAnim])).1 rfl
  exact ⟨hdef, hfl, hc.1, hwrap.1⟩

end Ebx
